import Mathlib

/-!
Shallow embedding of the event-queue / batching / submission engine of
`src/MobileAnalyticsClient.js` (react-native-aws-mobile-analytics), together
with theorems checking the natural-language specification against it.

Modelling conventions:
* JS strings are `String`, JS integers `Int`/`Nat`, JS millisecond timestamps
  are `ℚ` (so that the throttling probability arithmetic is exact).
* A JS number that can be `NaN` is `JsNum` (for `Date.getTime`) or `JsRat`
  (for timestamp arithmetic); `undefined` string/number reads are `Option`.
* JS objects used as string-keyed maps (`batches`, `batchesInFlight`) are
  association lists with unique keys; object key order (insertion order) is
  list order.
* Fallible or possibly-diverging code returns `Except`/`Option`; the only
  `while` loop without a structural bound (`generateBatches`) takes fuel and
  returns `none` when the fuel runs out.
-/

namespace AMA

/-- Subset of JS primitive values an event field can hold. -/
inductive JsVal where
  | str : String → JsVal
  | num : Int → JsVal
  | undef : JsVal
deriving DecidableEq

/-- JS `typeof x === 'string'`. -/
def typeofString : JsVal → Bool
  | .str _ => true
  | _ => false

/-- JS `typeof x === 'number'`. -/
def typeofNumber : JsVal → Bool
  | .num _ => true
  | _ => false

/-- A JS number that may be `NaN` (integer-valued where finite). -/
inductive JsNum where
  | nan : JsNum
  | fin : Int → JsNum
deriving DecidableEq

/-- JS subtraction on possibly-NaN numbers: `NaN` propagates. -/
def jsNumSub : JsNum → JsNum → JsNum
  | .fin a, .fin b => .fin (a - b)
  | _, _ => .nan

/-- The `session` sub-object of a built event (`createEvent`, lines 294-305):
`stopTimestamp` and `duration` are only set when the argument session has a
stop timestamp. -/
structure SessionRecord where
  id : String
  startTimestamp : String
  stopTimestamp : Option String := none
  duration : Option JsNum := none
deriving DecidableEq

/-- The session argument passed by the caller to `createEvent`. -/
structure SessionArg where
  id : String
  startTimestamp : String
  stopTimestamp : Option String := none
deriving DecidableEq

/-- An event as built by `createEvent` (lines 291-301).  Attribute values are
strings because `createEvent` JSON-stringifies every non-string attribute
value before building the event (lines 282-290); metric values are arbitrary
JS values, which `validateEvent` checks for numericity. -/
structure AmaEvent where
  eventType : JsVal
  timestamp : String
  session : SessionRecord
  version : String
  attributes : List (String × String)
  metrics : List (String × JsVal)
deriving DecidableEq

/-- JS truthiness of a string: only the empty string is falsy. -/
def truthyString (s : String) : Bool := !(s == "")

/-- `customNameErrorFilter` (lines 216-221): a name fails when it is empty or
longer than 50 characters. -/
def customNameErrorFilter (name : String) : Bool :=
  if name.length = 0 then true else decide (name.length > 50)

/-- `customAttrValueErrorFilter` (lines 223-225): in the source it receives the
attribute name and reads `event.attributes[name]`; here it receives that value
directly.  The JS test `value && value.length > 200` is truthiness of the value
conjoined with the length test. -/
def customAttrValueErrorFilter (value : String) : Bool :=
  truthyString value && decide (value.length > 200)

/-- `invalidMetrics[0]` of the source, as interpolated into the error message;
when the array is empty JS would interpolate the string `undefined`. -/
def firstInvalidMetricName (e : AmaEvent) : String :=
  (((e.metrics.filter (fun p => !typeofNumber p.2)).head?).map Prod.fst).getD "undefined"

/-- `validateEvent` (lines 213-257).  The source logs the message and returns
`null` on failure; we return the message in `Except.error`.  Success returns
the event itself. -/
def validateEvent (e : AmaEvent) : Except String AmaEvent :=
  let invalidMetrics := e.metrics.filter (fun p => !typeofNumber p.2)
  if e.version ≠ "v2.0" then
    .error "Event must have version v2.0"
  else if ¬ typeofString e.eventType then
    .error "Event Type must be a string"
  else if 0 < invalidMetrics.length then
    .error ("Event Metrics must be numeric ("
      ++ ((invalidMetrics.head?.map Prod.fst).getD "undefined") ++ ")")
  else if 40 < e.metrics.length + e.attributes.length then
    .error "Event Metric and Attribute Count cannot exceed 40"
  else if (e.attributes.filter (fun p => customNameErrorFilter p.1)).length ≠ 0 then
    .error "Event Attribute names must be 1-50 characters"
  else if (e.metrics.filter (fun p => customNameErrorFilter p.1)).length ≠ 0 then
    .error "Event Metric names must be 1-50 characters"
  else if (e.attributes.filter (fun p => customAttrValueErrorFilter p.2)).length ≠ 0 then
    .error "Event Attribute values cannot be longer than 200 characters"
  else
    .ok e

/-- Modelled from the spec (section 4.1): the validation check list, in order,
numbered 1-7, short-circuiting on the first failing check.  This is the
spec-side definition used to state the refinement claim C5; `validateEvent`
above is the code-side definition. -/
def specValidate (e : AmaEvent) : Except Nat AmaEvent :=
  if e.version ≠ "v2.0" then .error 1
  else if ¬ typeofString e.eventType then .error 2
  else if ¬ (∀ p ∈ e.metrics, typeofNumber p.2 = true) then .error 3
  else if ¬ (e.attributes.length + e.metrics.length ≤ 40) then .error 4
  else if ¬ (∀ p ∈ e.attributes, 1 ≤ p.1.length ∧ p.1.length ≤ 50) then .error 5
  else if ¬ (∀ p ∈ e.metrics, 1 ≤ p.1.length ∧ p.1.length ≤ 50) then .error 6
  else if ¬ (∀ p ∈ e.attributes, p.2.length ≤ 200) then .error 7
  else .ok e

/-- The log message the source emits for each spec check number. -/
def checkMessage (e : AmaEvent) : Nat → String
  | 1 => "Event must have version v2.0"
  | 2 => "Event Type must be a string"
  | 3 => "Event Metrics must be numeric (" ++ firstInvalidMetricName e ++ ")"
  | 4 => "Event Metric and Attribute Count cannot exceed 40"
  | 5 => "Event Attribute names must be 1-50 characters"
  | 6 => "Event Metric names must be 1-50 characters"
  | _ => "Event Attribute values cannot be longer than 200 characters"

/-- Map the error of an `Except`, keeping successes. -/
def exceptMapError (f : ε → δ) : Except ε α → Except δ α
  | .error e => .error (f e)
  | .ok a => .ok a

lemma filter_length_pos_iff {α : Type} (p : α → Bool) (l : List α) :
    0 < (l.filter p).length ↔ ∃ a ∈ l, p a = true := by
  induction l with
  | nil => simp
  | cons x xs ih =>
    by_cases h : p x = true
    · simp [List.filter_cons, h]
    · simp only [List.filter_cons, h, if_neg, Bool.false_eq_true, ite_false, ih,
        List.mem_cons]
      constructor
      · rintro ⟨a, ha, hpa⟩; exact ⟨a, Or.inr ha, hpa⟩
      · rintro ⟨a, ha | ha, hpa⟩
        · subst ha; exact absurd hpa h
        · exact ⟨a, ha, hpa⟩

lemma invalidMetrics_length_iff (l : List (String × JsVal)) :
    0 < (l.filter (fun p => !typeofNumber p.2)).length ↔
      ¬ (∀ p ∈ l, typeofNumber p.2 = true) := by
  rw [filter_length_pos_iff]
  push_neg
  constructor
  · rintro ⟨a, ha, hpa⟩
    exact ⟨a, ha, by simpa using hpa⟩
  · rintro ⟨a, ha, hpa⟩
    exact ⟨a, ha, by simpa using hpa⟩

lemma customNameErrorFilter_iff (n : String) :
    customNameErrorFilter n = true ↔ ¬ (1 ≤ n.length ∧ n.length ≤ 50) := by
  unfold customNameErrorFilter
  by_cases h : n.length = 0
  · simp [h]
  · simp only [h, if_neg, ite_false, decide_eq_true_eq]
    omega

lemma nameFilter_length_iff {α : Type} (l : List (String × α)) :
    ((l.filter (fun p => customNameErrorFilter p.1)).length ≠ 0) ↔
      ¬ (∀ p ∈ l, 1 ≤ p.1.length ∧ p.1.length ≤ 50) := by
  rw [← Nat.pos_iff_ne_zero, filter_length_pos_iff]
  constructor
  · rintro ⟨a, ha, hpa⟩ hall
    exact (customNameErrorFilter_iff a.1).mp hpa (hall a ha)
  · intro h
    by_contra hno
    push_neg at hno
    apply h
    intro p hp
    by_contra hbad
    exact hno p hp ((customNameErrorFilter_iff p.1).mpr hbad)

lemma customAttrValueErrorFilter_iff (v : String) :
    customAttrValueErrorFilter v = true ↔ 200 < v.length := by
  unfold customAttrValueErrorFilter truthyString
  simp only [Bool.and_eq_true, Bool.not_eq_true', beq_eq_false_iff_ne, ne_eq,
    decide_eq_true_eq]
  constructor
  · rintro ⟨-, h⟩; exact h
  · intro h
    refine ⟨?_, h⟩
    intro hv
    subst hv
    exact absurd h (by decide)

lemma valueFilter_length_iff (l : List (String × String)) :
    ((l.filter (fun p => customAttrValueErrorFilter p.2)).length ≠ 0) ↔
      ¬ (∀ p ∈ l, p.2.length ≤ 200) := by
  rw [← Nat.pos_iff_ne_zero, filter_length_pos_iff]
  constructor
  · rintro ⟨a, ha, hpa⟩ hall
    have h1 := (customAttrValueErrorFilter_iff a.2).mp hpa
    have h2 := hall a ha
    omega
  · intro h
    by_contra hno
    push_neg at hno
    apply h
    intro p hp
    by_contra hbad
    exact hno p hp ((customAttrValueErrorFilter_iff p.2).mpr (by omega))

lemma validateEvent_eq_specValidate (e : AmaEvent) :
    validateEvent e = exceptMapError (checkMessage e) (specValidate e) := by
  simp only [validateEvent, specValidate]
  by_cases h1 : e.version ≠ "v2.0"
  · rw [if_pos h1, if_pos h1]; rfl
  rw [if_neg h1, if_neg h1]
  by_cases h2 : ¬ typeofString e.eventType
  · rw [if_pos h2, if_pos h2]; rfl
  rw [if_neg h2, if_neg h2]
  by_cases h3 : 0 < (e.metrics.filter (fun p => !typeofNumber p.2)).length
  · rw [if_pos h3, if_pos ((invalidMetrics_length_iff e.metrics).mp h3)]; rfl
  rw [if_neg h3, if_neg (fun hc => h3 ((invalidMetrics_length_iff e.metrics).mpr hc))]
  by_cases h4 : 40 < e.metrics.length + e.attributes.length
  · have h4s : ¬ (e.attributes.length + e.metrics.length ≤ 40) := by omega
    rw [if_pos h4, if_pos h4s]; rfl
  have h4s : ¬ ¬ (e.attributes.length + e.metrics.length ≤ 40) := by omega
  rw [if_neg h4, if_neg h4s]
  by_cases h5 : (e.attributes.filter (fun p => customNameErrorFilter p.1)).length ≠ 0
  · rw [if_pos h5, if_pos ((nameFilter_length_iff e.attributes).mp h5)]; rfl
  rw [if_neg h5, if_neg (fun hc => h5 ((nameFilter_length_iff e.attributes).mpr hc))]
  by_cases h6 : (e.metrics.filter (fun p => customNameErrorFilter p.1)).length ≠ 0
  · rw [if_pos h6, if_pos ((nameFilter_length_iff e.metrics).mp h6)]; rfl
  rw [if_neg h6, if_neg (fun hc => h6 ((nameFilter_length_iff e.metrics).mpr hc))]
  by_cases h7 : (e.attributes.filter (fun p => customAttrValueErrorFilter p.2)).length ≠ 0
  · rw [if_pos h7, if_pos ((valueFilter_length_iff e.attributes).mp h7)]; rfl
  rw [if_neg h7, if_neg (fun hc => h7 ((valueFilter_length_iff e.attributes).mpr hc))]
  rfl

/-- Session used by the concrete boundary events. -/
def s0 : SessionRecord := { id := "s", startTimestamp := "start" }

/-- 40 one-to-two character attribute names with a short value. -/
def attrs40 : List (String × String) := (List.range 40).map (fun i => (toString i, "v"))

/-- 41 attribute entries: one over the count limit. -/
def attrs41 : List (String × String) := (List.range 41).map (fun i => (toString i, "v"))

def ev40 : AmaEvent :=
  { eventType := .str "t", timestamp := "ts", session := s0, version := "v2.0",
    attributes := attrs40, metrics := [] }

def ev41 : AmaEvent :=
  { eventType := .str "t", timestamp := "ts", session := s0, version := "v2.0",
    attributes := attrs41, metrics := [] }

/-- An attribute value of exactly 200 characters. -/
def val200 : String := String.mk (List.replicate 200 'a')

/-- An attribute value of 201 characters. -/
def val201 : String := String.mk (List.replicate 201 'a')

def evVal200 : AmaEvent :=
  { eventType := .str "t", timestamp := "ts", session := s0, version := "v2.0",
    attributes := [("a", val200)], metrics := [] }

def evVal201 : AmaEvent :=
  { eventType := .str "t", timestamp := "ts", session := s0, version := "v2.0",
    attributes := [("a", val201)], metrics := [] }

set_option maxRecDepth 8000 in
/-- C5: `validateEvent` returns the event exactly when all spec checks hold and
otherwise reports the first failing check in the spec order (version, event
type string, metrics numeric, count at most 40, attribute names 1-50, metric
names 1-50, attribute values at most 200), never raising; and at the
boundaries an event with 40 attribute+metric entries is accepted while 41 is
rejected, and an attribute value of 200 characters is accepted while 201 is
rejected. -/
theorem c5_validateEvent_matches_spec :
    (∀ e : AmaEvent, validateEvent e = exceptMapError (checkMessage e) (specValidate e)) ∧
    validateEvent ev40 = .ok ev40 ∧
    validateEvent ev41 = .error "Event Metric and Attribute Count cannot exceed 40" ∧
    validateEvent evVal200 = .ok evVal200 ∧
    validateEvent evVal201 = .error "Event Attribute values cannot be longer than 200 characters" := by
  refine ⟨validateEvent_eq_specValidate, ?_, ?_, ?_, ?_⟩ <;> rfl

/-- JS `new Date(x).getTime()` where `x : string | undefined`.
`new Date(undefined)` is an Invalid Date whose `getTime()` is `NaN`; parsing of
a defined ISO string is delegated to the `dateParse` parameter (the host
`Date` implementation, external to the source file). -/
def dateGetTime (dateParse : String → JsNum) : Option String → JsNum
  | none => .nan
  | some s => dateParse s

/-- JS property read `event.stopTimestamp` on the event object built by
`createEvent` (lines 291-301): the object has own properties `eventType`,
`timestamp`, `session`, `version`, `attributes`, `metrics` only, so the read
yields `undefined` (the stop timestamp lives at `event.session.stopTimestamp`,
not at top level). -/
def AmaEvent.stopTimestampRead (_ : AmaEvent) : Option String := none

/-- JS property read `event.startTimestamp`, likewise `undefined` (line 304
reads it from the event object, not from `event.session`). -/
def AmaEvent.startTimestampRead (_ : AmaEvent) : Option String := none

/-- `createEvent` (lines 270-307).  `now` is `new Date().toISOString()`.
Merging of `globalAttributes`/`globalMetrics` (`Util.mergeObjects`, defined in
MobileAnalyticsUtilities.js, outside this file) and the JSON-stringification
of non-string attribute values are taken as already applied to the
`attributes`/`metrics` arguments; neither affects the session fields.  The
built event is passed through `validateEvent` (line 306). -/
def createEvent (dateParse : String → JsNum) (now : String) (eventType : JsVal)
    (session : SessionArg) (attributes : List (String × String))
    (metrics : List (String × JsVal)) : Except String AmaEvent :=
  let event : AmaEvent :=
    { eventType := eventType
      timestamp := now
      session := { id := session.id, startTimestamp := session.startTimestamp }
      version := "v2.0"
      attributes := attributes
      metrics := metrics }
  let event :=
    match session.stopTimestamp with
    | none => event
    | some stop =>
      { event with
          session :=
            { event.session with
                stopTimestamp := some stop
                duration := some (jsNumSub
                  (dateGetTime dateParse event.stopTimestampRead)
                  (dateGetTime dateParse event.startTimestampRead)) } }
  validateEvent event

lemma validateEvent_ok_eq {x y : AmaEvent} (h : validateEvent x = .ok y) : y = x := by
  simp only [validateEvent] at h
  split_ifs at h
  exact (Except.ok.inj h).symm

/-- C4 (code_bug evidence): whenever the session argument carries a stop
timestamp, the event returned by `createEvent` has `session.duration = NaN`,
not the numeric difference of the stop and start timestamps: line 304 reads
`event.stopTimestamp` and `event.startTimestamp`, which do not exist on the
event object, so both `getTime()` calls yield `NaN`. -/
theorem c4_createEvent_duration_is_nan (dateParse : String → JsNum) (now : String)
    (eventType : JsVal) (session : SessionArg) (attributes : List (String × String))
    (metrics : List (String × JsVal)) (stop : String) (e : AmaEvent)
    (hstop : session.stopTimestamp = some stop)
    (hok : createEvent dateParse now eventType session attributes metrics = .ok e) :
    e.session.duration = some JsNum.nan := by
  unfold createEvent at hok
  rw [hstop] at hok
  simp only at hok
  have he := validateEvent_ok_eq hok
  rw [he]
  rfl

def wParse : String → JsNum := fun _ => .fin 0

def wSession4 : SessionArg := { id := "s", startTimestamp := "2020", stopTimestamp := some "2021" }

def wEvent4 : AmaEvent :=
  { eventType := .str "t", timestamp := "now",
    session := { id := "s", startTimestamp := "2020", stopTimestamp := some "2021",
                 duration := some JsNum.nan },
    version := "v2.0", attributes := [], metrics := [] }

/-- Witness for C4: a concrete valid call on which the bug is observable. -/
theorem c4_witness :
    wSession4.stopTimestamp = some "2021" ∧
    createEvent wParse "now" (.str "t") wSession4 [] [] = .ok wEvent4 ∧
    wEvent4.session.duration = some JsNum.nan :=
  ⟨rfl, rfl, c4_createEvent_duration_is_nan wParse "now" (.str "t") wSession4 [] []
    "2021" wEvent4 rfl rfl⟩

/-! ## Client submission state (`this.outputs` plus persisted storage) -/

/-- The three persisted storage slots written through `this.storage.set`
(`StorageKeys` of lines 137-141).  `Storage` itself (Storage.js) is outside
this file; modelled from the spec: a key/value store where `set(key, value)`
replaces the named slot. -/
structure StorageSlots (Ev : Type) where
  EVENTS : List Ev
  BATCHES : List (Nat × List Ev)
  BATCH_INDEX : List Nat
deriving DecidableEq

/-- The mutable engine state (`this.outputs`, lines 143-150, plus the storage
collaborator).  Batch ids are `Nat`; `nextGuid` models `Util.GUID()`
(MobileAnalyticsUtilities.js, outside this file) — modelled from the spec:
`id: GUID string, generated at creation`, globally unique, so each call
returns a fresh id, here the counter value. -/
structure ClientState (Ev : Type) where
  events : List Ev
  batches : List (Nat × List Ev)
  batchIndex : List Nat
  batchesInFlight : List (Nat × ℚ)
  isThrottled : Bool
  lastSubmitTimestamp : Option ℚ
  nextGuid : Nat
  storage : StorageSlots Ev
deriving DecidableEq

/-- First value stored under key `k` in an association list (JS object read
`m[k]`, `undefined` when absent). -/
def findVal {α : Type} (k : Nat) : List (Nat × α) → Option α
  | [] => none
  | p :: rest => if p.1 = k then some p.2 else findVal k rest

/-- JS object write `m[k] = v`: overwrite the existing property, else append a
new one (JS objects preserve insertion order of keys). -/
def putKey {α : Type} (m : List (Nat × α)) (k : Nat) (v : α) : List (Nat × α) :=
  if (findVal k m).isSome then m.map (fun p => if p.1 = k then (k, v) else p)
  else m ++ [(k, v)]

/-- JS `delete m[k]`: the property named `k` is removed (JS objects never hold
a duplicate key). -/
def eraseKey {α : Type} (m : List (Nat × α)) (k : Nat) : List (Nat × α) :=
  m.filter (fun p => decide (p.1 ≠ k))

lemma findVal_eraseKey_self {α : Type} (m : List (Nat × α)) (k : Nat) :
    findVal k (eraseKey m k) = none := by
  induction m with
  | nil => rfl
  | cons p rest ih =>
    by_cases h : p.1 = k
    · simpa [eraseKey, List.filter_cons, h] using ih
    · simpa [eraseKey, List.filter_cons, h, findVal] using ih

lemma findVal_eraseKey_ne {α : Type} (m : List (Nat × α)) (k j : Nat) (h : j ≠ k) :
    findVal j (eraseKey m k) = findVal j m := by
  induction m with
  | nil => rfl
  | cons p rest ih =>
    unfold eraseKey at ih ⊢
    rw [List.filter_cons]
    by_cases hp : p.1 = k
    · rw [if_neg (by simp [hp])]
      rw [ih]
      conv_rhs => unfold findVal
      rw [if_neg (by rw [hp]; exact fun hc => h hc.symm)]
    · rw [if_pos (by simp [hp])]
      unfold findVal
      by_cases hj : p.1 = j
      · rw [if_pos hj, if_pos hj]
      · rw [if_neg hj, if_neg hj]; exact ih

lemma findVal_append {α : Type} (m₁ m₂ : List (Nat × α)) (k : Nat) :
    findVal k (m₁ ++ m₂) =
      match findVal k m₁ with
      | some v => some v
      | none => findVal k m₂ := by
  induction m₁ with
  | nil => rfl
  | cons p rest ih =>
    by_cases h : p.1 = k
    · simp [findVal, h]
    · simp [findVal, h, ih]

lemma putKey_of_none {α : Type} (m : List (Nat × α)) (k : Nat) (v : α)
    (h : findVal k m = none) : putKey m k v = m ++ [(k, v)] := by
  unfold putKey
  rw [h]
  rfl

lemma findVal_isSome_iff_mem {α : Type} (m : List (Nat × α)) (k : Nat) :
    (findVal k m).isSome = true ↔ k ∈ m.map Prod.fst := by
  induction m with
  | nil => simp [findVal]
  | cons p rest ih =>
    unfold findVal
    by_cases h : p.1 = k
    · simp [h]
    · rw [if_neg h]
      simp only [List.map_cons, List.mem_cons]
      rw [ih]
      constructor
      · exact Or.inr
      · rintro (hc | hc)
        · exact absurd hc.symm h
        · exact hc

/-- `persistBatch` (lines 462-475): if the serialized size of the batch is
below the hard cap of 512000 bytes, store it under a fresh GUID, append the id
to the batch index and persist both slots, returning `true`; otherwise log
`Events too large` and return `false` with the state unchanged.  `bodySize`
abstracts `Util.getRequestBodySize` (MobileAnalyticsUtilities.js, outside this
file; the spec describes it as the serialized byte size of the wire encoding
of the event list). -/
def persistBatch {Ev : Type} (bodySize : List Ev → Nat) (eventBatch : List Ev)
    (st : ClientState Ev) : Bool × ClientState Ev :=
  if bodySize eventBatch < 512000 then
    (true,
      { st with
          batches := putKey st.batches st.nextGuid eventBatch
          batchIndex := st.batchIndex ++ [st.nextGuid]
          nextGuid := st.nextGuid + 1
          storage := { st.storage with
              BATCHES := putKey st.batches st.nextGuid eventBatch
              BATCH_INDEX := st.batchIndex ++ [st.nextGuid] } })
  else
    (false, st)

/-- The inner `while` of `generateBatches` (lines 447-452): starting from
`lastIndex = events.length`, decrement while `lastIndex > 1` and the first
`lastIndex` events serialize to more than `batchSizeLimit` bytes. -/
def batchCut {Ev : Type} (bodySize : List Ev → Nat) (limit : Nat) (events : List Ev) :
    Nat → Nat
  | 0 => 0
  | 1 => 1
  | n + 2 =>
    if limit < bodySize (events.take (n + 2)) then batchCut bodySize limit events (n + 1)
    else n + 2

/-- `generateBatches` (lines 443-459): the outer `while` drains the event
queue; each pass slices off the prefix chosen by the inner loop, and only on a
successful `persistBatch` removes it from the queue (persisting the shrunk
queue).  The source loop has no termination guarantee, so the model takes
fuel and returns `none` when the fuel is exhausted with the loop condition
still true. -/
def generateBatchesFuel {Ev : Type} (bodySize : List Ev → Nat) (limit : Nat) :
    Nat → ClientState Ev → Option (ClientState Ev)
  | 0, st => if st.events.length = 0 then some st else none
  | fuel + 1, st =>
    if st.events.length = 0 then some st
    else
      let lastIndex := batchCut bodySize limit st.events st.events.length
      let pr := persistBatch bodySize (st.events.take lastIndex) st
      let st' :=
        if pr.1 then
          let rest := pr.2.events.drop lastIndex
          { pr.2 with events := rest, storage := { pr.2.storage with EVENTS := rest } }
        else pr.2
      generateBatchesFuel bodySize limit fuel st'

/-- C1 (code_bug evidence): when the event queue holds a single event whose
serialized size is at or above the hard cap of 512000 bytes, `generateBatches`
never returns: `persistBatch` logs `Events too large` and returns `false`, but
`generateBatches` then leaves the queue untouched and re-enters the loop with
identical state, for any amount of fuel.  The events are never dropped and the
queue never becomes empty, contradicting the claimed drop-and-terminate
behaviour. -/
theorem c1_generateBatches_oversized_event_diverges {Ev : Type}
    (bodySize : List Ev → Nat) (limit : Nat) (e : Ev) (st : ClientState Ev)
    (hq : st.events = [e]) (hbig : 512000 ≤ bodySize [e]) :
    ∀ fuel, generateBatchesFuel bodySize limit fuel st = none := by
  intro fuel
  induction fuel with
  | zero =>
    unfold generateBatchesFuel
    rw [hq]
    rfl
  | succ n ih =>
    unfold generateBatchesFuel
    rw [hq]
    simp only [List.length_cons, List.length_nil, Nat.zero_add, if_neg (by omega : ¬(1 = 0))]
    have hcut : batchCut bodySize limit [e] 1 = 1 := rfl
    have htake : ([e] : List Ev).take 1 = [e] := rfl
    have hpersist : persistBatch bodySize ([e] : List Ev) st = (false, st) := by
      unfold persistBatch
      rw [if_neg (by omega)]
    rw [hcut, htake, hpersist]
    simp only [Bool.false_eq_true, if_false]
    exact ih

/-- Witness state for C1. -/
def wSt1 : ClientState Nat :=
  { events := [5], batches := [], batchIndex := [], batchesInFlight := [],
    isThrottled := false, lastSubmitTimestamp := none, nextGuid := 0,
    storage := { EVENTS := [5], BATCHES := [], BATCH_INDEX := [] } }

/-- Witness for C1: a single 600000-byte event never drains, whatever the
fuel. -/
theorem c1_witness :
    wSt1.events = [5] ∧ 512000 ≤ (fun l : List Nat => 600000 * l.length) [5] ∧
    generateBatchesFuel (fun l : List Nat => 600000 * l.length) 256000 9 wSt1 = none :=
  ⟨rfl, by norm_num,
    c1_generateBatches_oversized_event_diverges (fun l : List Nat => 600000 * l.length)
      256000 5 wSt1 rfl (by norm_num) 9⟩

lemma findVal_none_of_fresh {α : Type} (m : List (Nat × α)) (g : Nat)
    (h : ∀ p ∈ m, p.1 < g) : findVal g m = none := by
  induction m with
  | nil => rfl
  | cons p rest ih =>
    unfold findVal
    rw [if_neg (by have := h p (by simp); omega)]
    exact ih (fun q hq => h q (by simp [hq]))

lemma generateBatches_run_spec {Ev : Type} (bodySize : List Ev → Nat) (limit : Nat) :
    ∀ (fuel : Nat) (st st' : ClientState Ev),
      (∀ p ∈ st.batches, p.1 < st.nextGuid) →
      generateBatchesFuel bodySize limit fuel st = some st' →
      ∃ ps : List (Nat × List Ev),
        st'.events = [] ∧
        st'.batches = st.batches ++ ps ∧
        st'.batchIndex = st.batchIndex ++ ps.map Prod.fst ∧
        (ps.map Prod.snd).flatten = st.events ∧
        st.nextGuid ≤ st'.nextGuid ∧
        (∀ p ∈ ps, st.nextGuid ≤ p.1 ∧ p.1 < st'.nextGuid) := by
  intro fuel
  induction fuel with
  | zero =>
    intro st st' hfresh hrun
    unfold generateBatchesFuel at hrun
    by_cases h : st.events.length = 0
    · rw [if_pos h] at hrun
      cases hrun
      have hev : st.events = [] := List.length_eq_zero.mp h
      exact ⟨[], hev, by simp, by simp, by simp [hev], le_refl _, by simp⟩
    · rw [if_neg h] at hrun
      cases hrun
  | succ n ih =>
    intro st st' hfresh hrun
    unfold generateBatchesFuel at hrun
    by_cases h : st.events.length = 0
    · rw [if_pos h] at hrun
      cases hrun
      have hev : st.events = [] := List.length_eq_zero.mp h
      exact ⟨[], hev, by simp, by simp, by simp [hev], le_refl _, by simp⟩
    · rw [if_neg h] at hrun
      simp only at hrun
      set k := batchCut bodySize limit st.events st.events.length with hk
      by_cases hsz : bodySize (st.events.take k) < 512000
      · have hkeyfresh : findVal st.nextGuid st.batches = none :=
          findVal_none_of_fresh _ _ hfresh
        have hput : putKey st.batches st.nextGuid (st.events.take k) =
            st.batches ++ [(st.nextGuid, st.events.take k)] :=
          putKey_of_none _ _ _ hkeyfresh
        have hper : persistBatch bodySize (st.events.take k) st =
            (true,
              { st with
                  batches := st.batches ++ [(st.nextGuid, st.events.take k)]
                  batchIndex := st.batchIndex ++ [st.nextGuid]
                  nextGuid := st.nextGuid + 1
                  storage := { st.storage with
                      BATCHES := st.batches ++ [(st.nextGuid, st.events.take k)]
                      BATCH_INDEX := st.batchIndex ++ [st.nextGuid] } }) := by
          unfold persistBatch
          rw [if_pos hsz, hput]
        rw [hper] at hrun
        have hrun2 : generateBatchesFuel bodySize limit n
            { st with
                events := st.events.drop k
                batches := st.batches ++ [(st.nextGuid, st.events.take k)]
                batchIndex := st.batchIndex ++ [st.nextGuid]
                nextGuid := st.nextGuid + 1
                storage := { st.storage with
                    EVENTS := st.events.drop k
                    BATCHES := st.batches ++ [(st.nextGuid, st.events.take k)]
                    BATCH_INDEX := st.batchIndex ++ [st.nextGuid] } } = some st' := hrun
        obtain ⟨ps', hev', hb', hi', hfl', hgd', hbd'⟩ :=
          ih _ st'
            (by
              intro p hp
              simp only [List.mem_append, List.mem_singleton] at hp
              show p.1 < st.nextGuid + 1
              rcases hp with hp | hp
              · have := hfresh p hp
                omega
              · rw [hp]
                exact Nat.lt_succ_self _)
            hrun2
        simp only at hev' hb' hi' hfl' hgd' hbd'
        refine ⟨(st.nextGuid, st.events.take k) :: ps', hev', ?_, ?_, ?_, by omega, ?_⟩
        · rw [hb']
          simp [List.append_assoc]
        · rw [hi']
          simp [List.append_assoc]
        · simp only [List.map_cons, List.flatten_cons]
          rw [hfl']
          exact List.take_append_drop k st.events
        · intro p hp
          rcases List.mem_cons.mp hp with hp | hp
          · rw [hp]
            exact ⟨le_refl _, show st.nextGuid < st'.nextGuid by omega⟩
          · have := hbd' p hp
            omega
      · have hper : persistBatch bodySize (st.events.take k) st = (false, st) := by
          unfold persistBatch
          rw [if_neg hsz]
        rw [hper] at hrun
        have hrun2 : generateBatchesFuel bodySize limit n st = some st' := hrun
        exact ih _ st' hfresh hrun2

/-- C7: over one terminating `generateBatches` invocation, the new batches are
appended to `batches` and their ids appended to `batchIndex` in creation
order, and the concatenation of their event lists in that order is exactly the
original event queue, which is fully drained (FIFO within and across
batches). -/
theorem c7_generateBatches_preserves_order {Ev : Type} (bodySize : List Ev → Nat)
    (limit fuel : Nat) (st st' : ClientState Ev)
    (hfresh : ∀ p ∈ st.batches, p.1 < st.nextGuid)
    (hrun : generateBatchesFuel bodySize limit fuel st = some st') :
    ∃ ps : List (Nat × List Ev),
      st'.events = [] ∧
      st'.batches = st.batches ++ ps ∧
      st'.batchIndex = st.batchIndex ++ ps.map Prod.fst ∧
      (ps.map Prod.snd).flatten = st.events := by
  obtain ⟨ps, h1, h2, h3, h4, -, -⟩ :=
    generateBatches_run_spec bodySize limit fuel st st' hfresh hrun
  exact ⟨ps, h1, h2, h3, h4⟩

/-- Witness state for C7: two events that fit one per batch. -/
def wSt7 : ClientState Nat :=
  { events := [10, 20], batches := [], batchIndex := [], batchesInFlight := [],
    isThrottled := false, lastSubmitTimestamp := none, nextGuid := 3,
    storage := { EVENTS := [10, 20], BATCHES := [], BATCH_INDEX := [] } }

/-- Witness for C7 at a concrete run splitting the queue into two batches. -/
theorem c7_witness :
    ∃ ps : List (Nat × List Nat),
      ∃ st', generateBatchesFuel (fun l : List Nat => 200000 * l.length) 256000 4 wSt7 =
          some st' ∧
        st'.events = [] ∧
        st'.batches = wSt7.batches ++ ps ∧
        st'.batchIndex = wSt7.batchIndex ++ ps.map Prod.fst ∧
        (ps.map Prod.snd).flatten = wSt7.events := by
  obtain ⟨ps, h1, h2, h3, h4⟩ :=
    c7_generateBatches_preserves_order (fun l : List Nat => 200000 * l.length) 256000 4
      wSt7 ((generateBatchesFuel (fun l : List Nat => 200000 * l.length) 256000 4
        wSt7).get (by rfl))
      (by intro p hp; cases hp)
      (by rfl)
  exact ⟨ps, _, rfl, h1, h2, h3, h4⟩

/-! ## Batch clearing and submission dispatch -/

/-- `clearBatchById` (lines 549-560): when the id occurs in the batch index,
delete the batch object entry, splice the first occurrence of the id out of
the index (`splice(indexOf(batchId), 1)` = `List.erase`), and persist both
slots; otherwise do nothing. -/
def clearBatchById {Ev : Type} (batchId : Nat) (st : ClientState Ev) : ClientState Ev :=
  if batchId ∈ st.batchIndex then
    { st with
        batches := eraseKey st.batches batchId
        batchIndex := st.batchIndex.erase batchId
        storage := { st.storage with
            BATCH_INDEX := st.batchIndex.erase batchId
            BATCHES := eraseKey st.batches batchId } }
  else st

/-- JS truthiness of `batchesInFlight[id]` (a dispatch timestamp or
`undefined`): `undefined` and `0` are falsy. -/
def jsTruthyTs : Option ℚ → Bool
  | none => false
  | some q => decide (q ≠ 0)

/-- `submitBatchById` (lines 494-510), reduced to its state effect: an absent
(`undefined`) batch id is rejected with a logged error and an `undefined`
return (GUID strings are non-empty, hence truthy); otherwise the batch is
marked in flight at the current timestamp and its id returned.  The actual
`putEvents` network call is asynchronous and externally handled; its response
is processed later by `handlePutEventsResponse`. -/
def submitBatchById {Ev : Type} (now : ℚ) (batchId : Option Nat) (st : ClientState Ev) :
    Option Nat × ClientState Ev :=
  match batchId with
  | none => (none, st)
  | some id => (some id, { st with batchesInFlight := putKey st.batchesInFlight id now })

/-- One step of the `forEach` in `submitAllBatches` (lines 483-489): skip ids
whose in-flight entry is truthy, dispatch the rest. -/
def dispatchStep {Ev : Type} (now : ℚ) (acc : List (Option Nat) × ClientState Ev)
    (id : Nat) : List (Option Nat) × ClientState Ev :=
  if jsTruthyTs (findVal id acc.2.batchesInFlight) then acc
  else
    (acc.1 ++ [(submitBatchById now (some id) acc.2).1],
      (submitBatchById now (some id) acc.2).2)

/-- `submitAllBatches` (lines 477-491): iterate the batch index in order,
dispatching every batch whose in-flight entry is falsy, collecting the
returned ids. -/
def submitAllBatches {Ev : Type} (now : ℚ) (st : ClientState Ev) :
    List (Option Nat) × ClientState Ev :=
  st.batchIndex.foldl (dispatchStep now) ([], st)

/-- The error value passed to the `putEvents` callback: an optional HTTP
status code and an optional machine-readable error code. -/
structure JsError where
  statusCode : Option Int
  code : Option String
deriving DecidableEq

/-- Line 514. -/
def NON_RETRYABLE_EXCEPTIONS : List String :=
  ["BadRequestException", "SerializationException", "ValidationException"]

/-- `NON_RETRYABLE_EXCEPTIONS.indexOf(err.code) >= 0`; `indexOf(undefined)` is
`-1`. -/
def nonRetryableHit : Option String → Bool
  | none => false
  | some c => NON_RETRYABLE_EXCEPTIONS.contains c

/-- The final value of the handler's `clearBatch` flag (lines 517-529):
initialized `true`; on an error with no status code or status 400 it becomes
`false` exactly when the code is not in the non-retryable set. -/
def handlerClearFlag : Option JsError → Bool
  | some e =>
    if e.statusCode = none ∨ e.statusCode = some 400 then nonRetryableHit e.code
    else true
  | none => true

/-- The final value of `isThrottled` after the handler's classification
(lines 519-532): success clears it; an error with no status code or status
400 sets it to whether the code is `ThrottlingException`; any other status
code leaves it unchanged. -/
def handlerThrottle (err : Option JsError) (old : Bool) : Bool :=
  match err with
  | some e =>
    if e.statusCode = none ∨ e.statusCode = some 400 then
      decide (e.code = some "ThrottlingException")
    else old
  | none => false

/-- The state mutation of the response handler (lines 516-538) up to but not
including the throttle-clear flush: classify the response (`handlerThrottle`,
`handlerClearFlag`), clear the batch when the flag is set, then delete the
batch id from `batchesInFlight`.  The caller-supplied callback
`callback(err, data, batchId)` runs after this point (line 538) and is an
external side effect. -/
def handlerCore {Ev : Type} (batchId : Nat) (err : Option JsError)
    (st : ClientState Ev) : ClientState Ev :=
  let st0 := { st with isThrottled := handlerThrottle err st.isThrottled }
  let st1 := if handlerClearFlag err then clearBatchById batchId st0 else st0
  { st1 with batchesInFlight := eraseKey st1.batchesInFlight batchId }

/-- The full response handler (lines 513-546): `handlerCore`, then — exactly
when the state was throttled before the response and is not after it — a full
`submitAllBatches` pass (lines 539-544).  Returns the final state and the
ids dispatched by that flush (empty when no flush happens). -/
def handlePutEventsResponse {Ev : Type} (now : ℚ) (batchId : Nat)
    (err : Option JsError) (st : ClientState Ev) :
    ClientState Ev × List (Option Nat) :=
  if st.isThrottled && !(handlerCore batchId err st).isThrottled then
    ((submitAllBatches now (handlerCore batchId err st)).2,
      (submitAllBatches now (handlerCore batchId err st)).1)
  else
    (handlerCore batchId err st, [])

lemma clearBatchById_isThrottled {Ev : Type} (batchId : Nat) (st : ClientState Ev) :
    (clearBatchById batchId st).isThrottled = st.isThrottled := by
  unfold clearBatchById
  split_ifs <;> rfl

lemma handlerCore_isThrottled {Ev : Type} (batchId : Nat) (err : Option JsError)
    (st : ClientState Ev) :
    (handlerCore batchId err st).isThrottled = handlerThrottle err st.isThrottled := by
  simp only [handlerCore]
  split_ifs <;> simp [clearBatchById_isThrottled]

lemma clearBatchById_cleared {Ev : Type} (batchId : Nat) (st : ClientState Ev)
    (hnd : st.batchIndex.Nodup) (hmem : batchId ∈ st.batchIndex) :
    batchId ∉ (clearBatchById batchId st).batchIndex ∧
    findVal batchId (clearBatchById batchId st).batches = none ∧
    (clearBatchById batchId st).storage.BATCH_INDEX =
      (clearBatchById batchId st).batchIndex ∧
    (clearBatchById batchId st).storage.BATCHES = (clearBatchById batchId st).batches := by
  unfold clearBatchById
  rw [if_pos hmem]
  refine ⟨?_, findVal_eraseKey_self _ _, rfl, rfl⟩
  intro hc
  exact ((List.Nodup.mem_erase_iff hnd).mp hc).1 rfl

lemma foldl_dispatch_state {Ev : Type} (now : ℚ) (l : List Nat) :
    ∀ acc : List (Option Nat) × ClientState Ev,
      ∃ fl, (l.foldl (dispatchStep now) acc).2 = { acc.2 with batchesInFlight := fl } := by
  induction l with
  | nil =>
    intro acc
    exact ⟨acc.2.batchesInFlight, rfl⟩
  | cons x xs ih =>
    intro acc
    rw [List.foldl_cons]
    obtain ⟨fl, hfl⟩ := ih (dispatchStep now acc x)
    refine ⟨fl, ?_⟩
    rw [hfl]
    unfold dispatchStep submitBatchById
    split_ifs <;> rfl

lemma submitAllBatches_state {Ev : Type} (now : ℚ) (st : ClientState Ev) :
    ∃ fl, (submitAllBatches now st).2 = { st with batchesInFlight := fl } :=
  foldl_dispatch_state now st.batchIndex ([], st)

lemma handler_state_fields {Ev : Type} (now : ℚ) (batchId : Nat) (err : Option JsError)
    (st : ClientState Ev) :
    ∃ fl, (handlePutEventsResponse now batchId err st).1 =
      { handlerCore batchId err st with batchesInFlight := fl } := by
  unfold handlePutEventsResponse
  split_ifs
  · exact submitAllBatches_state now (handlerCore batchId err st)
  · exact ⟨(handlerCore batchId err st).batchesInFlight, rfl⟩

/-- After the handler, a batch that was present is absent from both the index
and the batch map, with both storage slots persisted — provided the handler
decided to clear (`handlerClearFlag err = true`). -/
lemma handler_clears {Ev : Type} (now : ℚ) (batchId : Nat) (err : Option JsError)
    (st : ClientState Ev) (hflag : handlerClearFlag err = true)
    (hnd : st.batchIndex.Nodup) (hmem : batchId ∈ st.batchIndex) :
    batchId ∉ (handlePutEventsResponse now batchId err st).1.batchIndex ∧
    findVal batchId (handlePutEventsResponse now batchId err st).1.batches = none ∧
    (handlePutEventsResponse now batchId err st).1.storage.BATCH_INDEX =
      (handlePutEventsResponse now batchId err st).1.batchIndex ∧
    (handlePutEventsResponse now batchId err st).1.storage.BATCHES =
      (handlePutEventsResponse now batchId err st).1.batches := by
  obtain ⟨fl, hfl⟩ := handler_state_fields now batchId err st
  have hcore : handlerCore batchId err st =
      { clearBatchById batchId
          { st with isThrottled := handlerThrottle err st.isThrottled } with
          batchesInFlight := eraseKey (clearBatchById batchId
            { st with isThrottled := handlerThrottle err st.isThrottled }).batchesInFlight
            batchId } := by
    simp only [handlerCore]
    rw [hflag]
    rfl
  have hc := clearBatchById_cleared batchId
    { st with isThrottled := handlerThrottle err st.isThrottled } hnd hmem
  rw [hfl, hcore]
  exact ⟨hc.1, hc.2.1, hc.2.2.1, hc.2.2.2⟩

/-- The batch is gone from both `batches` and `batchIndex` and both slots are
persisted (the Batch Store write-back of `clearBatchById`). -/
def batchCleared {Ev : Type} (batchId : Nat) (s : ClientState Ev) : Prop :=
  batchId ∉ s.batchIndex ∧ findVal batchId s.batches = none ∧
  s.storage.BATCH_INDEX = s.batchIndex ∧ s.storage.BATCHES = s.batches

/-- Concrete state for the C2 counterexample: one batch (id 7) in flight. -/
def cSt2 : ClientState Nat :=
  { events := [], batches := [(7, [1, 2])], batchIndex := [7],
    batchesInFlight := [(7, 5)], isThrottled := false, lastSubmitTimestamp := some 100,
    nextGuid := 8,
    storage := { EVENTS := [], BATCHES := [(7, [1, 2])], BATCH_INDEX := [7] } }

/-- A failure response with a defined status code different from 400. -/
def cErr2 : JsError := { statusCode := some 500, code := some "InternalFailure" }

/-- C2 counterexample: on a failure with status code 500 the handler does NOT
retain the batch — batch 7 is removed from both `batchIndex` and `batches`,
so the claim that such failures retain the batch is false on the code. -/
theorem c2_counterexample :
    7 ∉ (handlePutEventsResponse 200 7 (some cErr2) cSt2).1.batchIndex ∧
    findVal 7 (handlePutEventsResponse 200 7 (some cErr2) cSt2).1.batches = none ∧
    (handlePutEventsResponse 200 7 (some cErr2) cSt2).1.isThrottled = cSt2.isThrottled := by
  decide

/-- C2 as amended: for every failure response whose status code is defined and
different from 400, the handler CLEARS the batch (after processing, the id is
absent from both `batches` and `batchIndex`, both slots persisted) and leaves
the `isThrottled` flag unchanged. -/
theorem c2_amended_clears_on_other_status {Ev : Type} (now : ℚ) (batchId : Nat)
    (e : JsError) (c : Int) (st : ClientState Ev)
    (hsc : e.statusCode = some c) (hc400 : c ≠ 400)
    (hnd : st.batchIndex.Nodup) (hmem : batchId ∈ st.batchIndex) :
    batchCleared batchId (handlePutEventsResponse now batchId (some e) st).1 ∧
    (handlePutEventsResponse now batchId (some e) st).1.isThrottled = st.isThrottled := by
  have hscne : ¬ (e.statusCode = none ∨ e.statusCode = some 400) := by
    rw [hsc]
    rintro (h | h)
    · cases h
    · exact hc400 (Option.some.inj h)
  have hflag : handlerClearFlag (some e) = true := by
    show (if e.statusCode = none ∨ e.statusCode = some 400 then nonRetryableHit e.code
      else true) = true
    rw [if_neg hscne]
  have hthrot : handlerThrottle (some e) st.isThrottled = st.isThrottled := by
    show (if e.statusCode = none ∨ e.statusCode = some 400 then
      decide (e.code = some "ThrottlingException") else st.isThrottled) = st.isThrottled
    rw [if_neg hscne]
  constructor
  · have h := handler_clears now batchId (some e) st hflag hnd hmem
    exact ⟨h.1, h.2.1, h.2.2.1, h.2.2.2⟩
  · obtain ⟨fl, hfl⟩ := handler_state_fields now batchId (some e) st
    rw [hfl]
    show (handlerCore batchId (some e) st).isThrottled = st.isThrottled
    rw [handlerCore_isThrottled]
    exact hthrot

/-- Witness state for the C2 amended theorem. -/
def wSt2 : ClientState Nat :=
  { events := [], batches := [(3, [9])], batchIndex := [3],
    batchesInFlight := [(3, 4)], isThrottled := true, lastSubmitTimestamp := some 50,
    nextGuid := 4,
    storage := { EVENTS := [], BATCHES := [(3, [9])], BATCH_INDEX := [3] } }

/-- Witness for the C2 amended theorem at a concrete 503 failure. -/
theorem c2_amended_witness :
    batchCleared 3 (handlePutEventsResponse 60 3
      (some { statusCode := some 503, code := some "ServiceUnavailable" }) wSt2).1 ∧
    (handlePutEventsResponse 60 3
      (some { statusCode := some 503, code := some "ServiceUnavailable" }) wSt2).1.isThrottled =
      wSt2.isThrottled :=
  c2_amended_clears_on_other_status 60 3
    { statusCode := some 503, code := some "ServiceUnavailable" } 503 wSt2 rfl
    (by decide) (by decide) (by decide)

/-- C6: after a successful response for batch `B`, `isThrottled` is set to
false and `B` is removed from both `batches` and `batchIndex` with both slots
persisted; the same removal happens after a failure carrying no status code or
status 400 whose code is in the non-retryable set (BadRequestException,
SerializationException, ValidationException). -/
theorem c6_success_and_nonretryable_clear {Ev : Type} (now : ℚ) (batchId : Nat)
    (st : ClientState Ev) (hnd : st.batchIndex.Nodup) (hmem : batchId ∈ st.batchIndex) :
    ((handlePutEventsResponse now batchId none st).1.isThrottled = false ∧
      batchCleared batchId (handlePutEventsResponse now batchId none st).1) ∧
    (∀ e : JsError, (e.statusCode = none ∨ e.statusCode = some 400) →
      nonRetryableHit e.code = true →
      batchCleared batchId (handlePutEventsResponse now batchId (some e) st).1) := by
  constructor
  · constructor
    · obtain ⟨fl, hfl⟩ := handler_state_fields now batchId none st
      rw [hfl]
      show (handlerCore batchId none st).isThrottled = false
      rw [handlerCore_isThrottled]
      rfl
    · have h := handler_clears now batchId none st rfl hnd hmem
      exact ⟨h.1, h.2.1, h.2.2.1, h.2.2.2⟩
  · intro e hsc hnr
    have hflag : handlerClearFlag (some e) = true := by
      show (if e.statusCode = none ∨ e.statusCode = some 400 then nonRetryableHit e.code
        else true) = true
      rw [if_pos hsc]
      exact hnr
    have h := handler_clears now batchId (some e) st hflag hnd hmem
    exact ⟨h.1, h.2.1, h.2.2.1, h.2.2.2⟩

/-- Witness state for C6. -/
def wSt6 : ClientState Nat :=
  { events := [], batches := [(1, [7]), (2, [8])], batchIndex := [1, 2],
    batchesInFlight := [(1, 9)], isThrottled := true, lastSubmitTimestamp := some 10,
    nextGuid := 5,
    storage := { EVENTS := [], BATCHES := [(1, [7]), (2, [8])], BATCH_INDEX := [1, 2] } }

/-- Witness for C6: a concrete success and a concrete non-retryable 400. -/
theorem c6_witness :
    ((handlePutEventsResponse 20 1 none wSt6).1.isThrottled = false ∧
      batchCleared 1 (handlePutEventsResponse 20 1 none wSt6).1) ∧
    batchCleared 1 (handlePutEventsResponse 20 1
      (some { statusCode := some 400, code := some "BadRequestException" }) wSt6).1 :=
  ⟨(c6_success_and_nonretryable_clear 20 1 wSt6 (by decide) (by decide)).1,
    (c6_success_and_nonretryable_clear 20 1 wSt6 (by decide) (by decide)).2
      { statusCode := some 400, code := some "BadRequestException" }
      (Or.inr rfl) (by decide)⟩

lemma findVal_mapPut_ne {α : Type} (m : List (Nat × α)) (k j : Nat) (v : α) (h : j ≠ k) :
    findVal j (m.map (fun p => if p.1 = k then (k, v) else p)) = findVal j m := by
  induction m with
  | nil => rfl
  | cons p rest ih =>
    simp only [List.map_cons]
    by_cases hp : p.1 = k
    · rw [if_pos hp]
      unfold findVal
      rw [if_neg (show ¬((k, v).1 = j) from fun hc => h (hc.symm)),
        if_neg (by rw [hp]; exact fun hc => h hc.symm)]
      exact ih
    · rw [if_neg hp]
      unfold findVal
      by_cases hj : p.1 = j
      · rw [if_pos hj, if_pos hj]
      · rw [if_neg hj, if_neg hj]
        exact ih

lemma findVal_putKey_ne {α : Type} (m : List (Nat × α)) (k j : Nat) (v : α) (h : j ≠ k) :
    findVal j (putKey m k v) = findVal j m := by
  unfold putKey
  split_ifs with hs
  · exact findVal_mapPut_ne m k j v h
  · rw [findVal_append]
    cases hf : findVal j m with
    | some w => rfl
    | none =>
      unfold findVal
      rw [if_neg (show ¬((k, v).1 = j) from fun hc => h hc.symm)]
      rfl

lemma findVal_mem {α : Type} (m : List (Nat × α)) (k : Nat) (v : α)
    (h : findVal k m = some v) : (k, v) ∈ m := by
  induction m with
  | nil => cases h
  | cons p rest ih =>
    unfold findVal at h
    by_cases hp : p.1 = k
    · rw [if_pos hp] at h
      have hv : p.2 = v := Option.some.inj h
      have : (k, v) = p := by
        rw [← hp, ← hv]
      rw [this]
      exact List.mem_cons_self p rest
    · rw [if_neg hp] at h
      exact List.mem_cons_of_mem p (ih h)

lemma jsTruthyTs_eq_isSome {fl : List (Nat × ℚ)} (h : ∀ p ∈ fl, p.2 ≠ 0) (id : Nat) :
    jsTruthyTs (findVal id fl) = (findVal id fl).isSome := by
  cases hf : findVal id fl with
  | none => rfl
  | some q =>
    have hq := h (id, q) (findVal_mem fl id q hf)
    simp [jsTruthyTs, hq]

lemma foldl_dispatch_ids {Ev : Type} (now : ℚ) :
    ∀ (l : List Nat) (acc : List (Option Nat) × ClientState Ev) (fl0 : List (Nat × ℚ)),
      l.Nodup →
      (∀ id ∈ l, findVal id acc.2.batchesInFlight = findVal id fl0) →
      (l.foldl (dispatchStep now) acc).1 =
        acc.1 ++ (l.filter (fun id => !jsTruthyTs (findVal id fl0))).map some := by
  intro l
  induction l with
  | nil =>
    intro acc fl0 _ _
    simp
  | cons x xs ih =>
    intro acc fl0 hnd hagree
    rw [List.foldl_cons, List.filter_cons]
    have hx := hagree x (List.mem_cons_self x xs)
    by_cases ht : jsTruthyTs (findVal x fl0) = true
    · have hstep : dispatchStep now acc x = acc := by
        unfold dispatchStep
        rw [hx, if_pos ht]
      rw [hstep, ht]
      simp only [Bool.not_true, Bool.false_eq_true, if_false]
      exact ih acc fl0 (List.Nodup.of_cons hnd)
        (fun id hid => hagree id (List.mem_cons_of_mem x hid))
    · have ht' : jsTruthyTs (findVal x fl0) = false := Bool.eq_false_iff.mpr ht
      have hstep : dispatchStep now acc x =
          (acc.1 ++ [some x],
            { acc.2 with batchesInFlight := putKey acc.2.batchesInFlight x now }) := by
        unfold dispatchStep submitBatchById
        rw [hx, if_neg (by rw [ht']; exact Bool.false_ne_true)]
      rw [hstep, ht']
      simp only [Bool.not_false, if_pos]
      have hxnot : x ∉ xs := (List.nodup_cons.mp hnd).1
      have hrec := ih (acc.1 ++ [some x],
          { acc.2 with batchesInFlight := putKey acc.2.batchesInFlight x now }) fl0
        (List.Nodup.of_cons hnd)
        (fun id hid => by
          have hne : id ≠ x := fun hc => hxnot (hc ▸ hid)
          show findVal id (putKey acc.2.batchesInFlight x now) = findVal id fl0
          rw [findVal_putKey_ne _ _ _ _ hne]
          exact hagree id (List.mem_cons_of_mem x hid))
      rw [hrec]
      simp [List.append_assoc]

lemma submitAllBatches_ids {Ev : Type} (now : ℚ) (st : ClientState Ev)
    (hnd : st.batchIndex.Nodup) :
    (submitAllBatches now st).1 =
      (st.batchIndex.filter
        (fun id => !jsTruthyTs (findVal id st.batchesInFlight))).map some := by
  unfold submitAllBatches
  rw [foldl_dispatch_ids now st.batchIndex ([], st) st.batchesInFlight hnd
    (fun _ _ => rfl)]
  simp

/-- C9: whenever the handler runs in a state that was throttled before the
response and is not throttled after classification, the full result of the
handler is the `submitAllBatches` pass applied to the post-classification
state (batch removed from `batchesInFlight`, per-submission callback already
invoked), and the dispatched ids are exactly the pending batch ids with no
in-flight entry, in `batchIndex` order. -/
theorem c9_throttle_clear_triggers_flush {Ev : Type} (now : ℚ) (batchId : Nat)
    (err : Option JsError) (st : ClientState Ev)
    (hthr : st.isThrottled = true)
    (hpost : (handlerCore batchId err st).isThrottled = false)
    (hnd : (handlerCore batchId err st).batchIndex.Nodup)
    (hfl0 : ∀ p ∈ (handlerCore batchId err st).batchesInFlight, p.2 ≠ 0) :
    handlePutEventsResponse now batchId err st =
      ((submitAllBatches now (handlerCore batchId err st)).2,
        ((handlerCore batchId err st).batchIndex.filter
          (fun id => (findVal id (handlerCore batchId err st).batchesInFlight).isNone)).map
          some) ∧
    findVal batchId (handlerCore batchId err st).batchesInFlight = none := by
  constructor
  · unfold handlePutEventsResponse
    rw [hthr, hpost]
    show ((submitAllBatches now (handlerCore batchId err st)).2,
        (submitAllBatches now (handlerCore batchId err st)).1) = _
    rw [Prod.mk.injEq]
    refine ⟨rfl, ?_⟩
    rw [submitAllBatches_ids now _ hnd]
    congr 1
    apply List.filter_congr
    intro id _
    rw [jsTruthyTs_eq_isSome hfl0]
    cases findVal id (handlerCore batchId err st).batchesInFlight <;> rfl
  · exact findVal_eraseKey_self _ _

/-- Witness state for C9: throttled, batch 1 in flight, batch 2 pending. -/
def wSt9 : ClientState Nat :=
  { events := [], batches := [(1, [7]), (2, [8])], batchIndex := [1, 2],
    batchesInFlight := [(1, 9)], isThrottled := true, lastSubmitTimestamp := some 10,
    nextGuid := 5,
    storage := { EVENTS := [], BATCHES := [(1, [7]), (2, [8])], BATCH_INDEX := [1, 2] } }

/-- Witness for C9: a successful response for batch 1 while throttled flushes
the remaining pending batch 2. -/
theorem c9_witness :
    handlePutEventsResponse 20 1 none wSt9 =
      ((submitAllBatches 20 (handlerCore 1 none wSt9)).2,
        ((handlerCore 1 none wSt9).batchIndex.filter
          (fun id => (findVal id (handlerCore 1 none wSt9).batchesInFlight).isNone)).map
          some) ∧
    findVal 1 (handlerCore 1 none wSt9).batchesInFlight = none :=
  c9_throttle_clear_triggers_flush 20 1 none wSt9 rfl (by decide) (by decide) (by decide)

/-- The Batch Store invariant: the batch index has no duplicate id, its ids
are exactly the keys of the `batches` map (both inclusions), and — the
inductive strengthening needed because fresh ids come from the GUID counter —
every indexed id is below `nextGuid`. -/
def StoreInv {Ev : Type} (st : ClientState Ev) : Prop :=
  st.batchIndex.Nodup ∧
  (∀ id ∈ st.batchIndex, (findVal id st.batches).isSome = true) ∧
  (∀ p ∈ st.batches, p.1 ∈ st.batchIndex) ∧
  (∀ id ∈ st.batchIndex, id < st.nextGuid)

lemma persistBatch_inv {Ev : Type} (bodySize : List Ev → Nat) (eb : List Ev)
    (st : ClientState Ev) (hInv : StoreInv st) :
    StoreInv (persistBatch bodySize eb st).2 := by
  obtain ⟨h1, h2, h3, h4⟩ := hInv
  unfold persistBatch
  split_ifs with hsz
  · have hfg : findVal st.nextGuid st.batches = none := by
      cases hf : findVal st.nextGuid st.batches with
      | none => rfl
      | some v =>
        have hmem := h3 (st.nextGuid, v) (findVal_mem _ _ _ hf)
        have := h4 _ hmem
        omega
    have hput := putKey_of_none st.batches st.nextGuid eb hfg
    rw [hput]
    refine ⟨?_, ?_, ?_, ?_⟩
    · show (st.batchIndex ++ [st.nextGuid]).Nodup
      rw [List.nodup_append]
      refine ⟨h1, List.nodup_singleton _, ?_⟩
      intro a ha hb
      rw [List.mem_singleton] at hb
      have := h4 a ha
      omega
    · show ∀ id ∈ st.batchIndex ++ [st.nextGuid],
        (findVal id (st.batches ++ [(st.nextGuid, eb)])).isSome = true
      intro id hid
      rw [findVal_append]
      rcases List.mem_append.mp hid with hid | hid
      · have hs := h2 id hid
        cases hf : findVal id st.batches with
        | none => rw [hf] at hs; cases hs
        | some v => rfl
      · rw [List.mem_singleton] at hid
        subst hid
        rw [hfg]
        simp [findVal]
    · show ∀ p ∈ st.batches ++ [(st.nextGuid, eb)], p.1 ∈ st.batchIndex ++ [st.nextGuid]
      intro p hp
      rcases List.mem_append.mp hp with hp | hp
      · exact List.mem_append_left _ (h3 p hp)
      · rw [List.mem_singleton] at hp
        subst hp
        exact List.mem_append_right _ (List.mem_singleton.mpr rfl)
    · show ∀ id ∈ st.batchIndex ++ [st.nextGuid], id < st.nextGuid + 1
      intro id hid
      rcases List.mem_append.mp hid with hid | hid
      · have := h4 id hid
        omega
      · rw [List.mem_singleton] at hid
        omega
  · exact ⟨h1, h2, h3, h4⟩

lemma clearBatchById_inv {Ev : Type} (batchId : Nat) (st : ClientState Ev)
    (hInv : StoreInv st) : StoreInv (clearBatchById batchId st) := by
  obtain ⟨h1, h2, h3, h4⟩ := hInv
  unfold clearBatchById
  split_ifs with hmem
  · refine ⟨?_, ?_, ?_, ?_⟩
    · show (st.batchIndex.erase batchId).Nodup
      exact h1.erase _
    · show ∀ id ∈ st.batchIndex.erase batchId,
        (findVal id (eraseKey st.batches batchId)).isSome = true
      intro id hid
      obtain ⟨hne, hin⟩ := (List.Nodup.mem_erase_iff h1).mp hid
      rw [findVal_eraseKey_ne _ _ _ hne]
      exact h2 id hin
    · show ∀ p ∈ eraseKey st.batches batchId, p.1 ∈ st.batchIndex.erase batchId
      intro p hp
      unfold eraseKey at hp
      obtain ⟨hin, hne⟩ := List.mem_filter.mp hp
      rw [decide_eq_true_eq] at hne
      exact (List.Nodup.mem_erase_iff h1).mpr ⟨hne, h3 p hin⟩
    · show ∀ id ∈ st.batchIndex.erase batchId, id < st.nextGuid
      intro id hid
      exact h4 id (List.mem_of_mem_erase hid)
  · exact ⟨h1, h2, h3, h4⟩

lemma handler_inv {Ev : Type} (now : ℚ) (batchId : Nat) (err : Option JsError)
    (st : ClientState Ev) (hInv : StoreInv st) :
    StoreInv (handlePutEventsResponse now batchId err st).1 := by
  obtain ⟨fl, hfl⟩ := handler_state_fields now batchId err st
  rw [hfl]
  have hcore : StoreInv (handlerCore batchId err st) := by
    simp only [handlerCore]
    by_cases hf : handlerClearFlag err = true
    · rw [if_pos hf]
      exact clearBatchById_inv batchId
        { st with isThrottled := handlerThrottle err st.isThrottled } hInv
    · rw [if_neg hf]
      exact hInv
  exact hcore

/-- C10: `persistBatch`, `clearBatchById` and the response handler each
preserve the Batch Store invariant — ids occur at most once in `batchIndex`
and the id set of `batchIndex` coincides with the key set of `batches`. -/
theorem c10_store_invariant_preserved {Ev : Type} (bodySize : List Ev → Nat)
    (eb : List Ev) (batchId : Nat) (now : ℚ) (err : Option JsError)
    (st : ClientState Ev) (hInv : StoreInv st) :
    StoreInv (persistBatch bodySize eb st).2 ∧
    StoreInv (clearBatchById batchId st) ∧
    StoreInv (handlePutEventsResponse now batchId err st).1 :=
  ⟨persistBatch_inv bodySize eb st hInv, clearBatchById_inv batchId st hInv,
    handler_inv now batchId err st hInv⟩

/-- Witness state for C10. -/
def wSt10 : ClientState Nat :=
  { events := [6], batches := [(1, [7]), (2, [8])], batchIndex := [1, 2],
    batchesInFlight := [(1, 9)], isThrottled := false, lastSubmitTimestamp := some 10,
    nextGuid := 3,
    storage := { EVENTS := [6], BATCHES := [(1, [7]), (2, [8])], BATCH_INDEX := [1, 2] } }

/-- Witness for C10 at a concrete state satisfying the invariant. -/
theorem c10_witness :
    StoreInv wSt10 ∧
    StoreInv (persistBatch (fun l : List Nat => 100 * l.length) [4] wSt10).2 ∧
    StoreInv (clearBatchById 1 wSt10) ∧
    StoreInv (handlePutEventsResponse 20 1 none wSt10).1 := by
  have hInv : StoreInv wSt10 := ⟨by decide, by decide, by decide, by decide⟩
  have h := c10_store_invariant_preserved (fun l : List Nat => 100 * l.length) [4] 1 20
    none wSt10 hInv
  exact ⟨hInv, h.1, h.2.1, h.2.2⟩

/-! ## The submission gate (`submitEvents`) and throttle suppression -/

/-- A JS number over ℚ that may be NaN (timestamp arithmetic). -/
inductive JsRat where
  | nan : JsRat
  | fin : ℚ → JsRat
deriving DecidableEq

/-- JS `<` against a number: any comparison with NaN is false. -/
def jsRatLt : JsRat → ℚ → Bool
  | .nan, _ => false
  | .fin v, r => decide (v < r)

/-- `throttlingSuppressionFunction` (lines 437-440):
`(timestamp − lastSubmitTimestamp)² / 60000²`; when `lastSubmitTimestamp` is
`undefined` the subtraction yields NaN. -/
def throttlingSuppressionFunction (lastSubmitTimestamp : Option ℚ) (t : ℚ) : JsRat :=
  match lastSubmitTimestamp with
  | none => .nan
  | some l => .fin ((t - l) ^ 2 / 60000 ^ 2)

/-- The throttle gate of `submitEvents` (line 411): the pass is prevented when
throttled and the suppression value is below the uniform draw `r`
(`Math.random()`). -/
def preventedByThrottle {Ev : Type} (st : ClientState Ev) (t r : ℚ) : Bool :=
  st.isThrottled && jsRatLt (throttlingSuppressionFunction st.lastSubmitTimestamp t) r

/-- JS property read `batches.length` (line 415): `this.outputs.batches` is a
plain object keyed by GUIDs, not an array, and GUID strings are never the
string `length`, so the read yields `undefined`. -/
def objectLength {α : Type} (_ : List (Nat × α)) : Option Nat := none

/-- JS strict equality `x === 0` for `x : number | undefined`:
`undefined === 0` is false. -/
def jsStrictEqZero : Option Nat → Bool
  | none => false
  | some n => n == 0

/-- JS `now - lastSubmitTimestamp` (line 417): NaN when the timestamp is
`undefined`. -/
def jsSubOpt (t : ℚ) : Option ℚ → JsRat
  | none => .nan
  | some l => .fin (t - l)

/-- Result of one `submitEvents` call: the warning issued by the gate (if
any), the array the call returns, and the state afterwards. -/
structure SubmitResult (Ev : Type) where
  warn : Option String
  submitted : List (Option Nat)
  state : ClientState Ev
deriving DecidableEq

/-- `submitEvents` (lines 397-435).  The timer re-arm (lines 404-407,
`clearTimeout`/`setTimeout`) does not touch the modelled state.  The four
gates of lines 411-419 are evaluated in order; a warning returns `[]`.
Otherwise `generateBatches` runs (fuel-bounded; `none` when it diverges),
`lastSubmitTimestamp` is recorded, and either only the first indexed batch
(when throttled) or all non-in-flight batches are dispatched. -/
def submitEvents {Ev : Type} (bodySize : List Ev → Nat) (limit : Nat) (now r : ℚ)
    (fuel : Nat) (st : ClientState Ev) : Option (SubmitResult Ev) :=
  let warnMessage : Option String :=
    if preventedByThrottle st now r then
      some "Prevented submission while throttled"
    else if 0 < st.batchesInFlight.length then
      some "Prevented submission while batches are in flight"
    else if jsStrictEqZero (objectLength st.batches) && (st.events.length == 0) then
      some "No batches or events to be submitted"
    else if jsTruthyTs st.lastSubmitTimestamp &&
        jsRatLt (jsSubOpt now st.lastSubmitTimestamp) 1000 then
      some "Prevented multiple submissions in under a second"
    else none
  match warnMessage with
  | some w => some { warn := some w, submitted := [], state := st }
  | none =>
    match generateBatchesFuel bodySize limit fuel st with
    | none => none
    | some st1 =>
      let st2 := { st1 with lastSubmitTimestamp := some now }
      if st2.isThrottled then
        some { warn := none
               submitted := [(submitBatchById now st2.batchIndex.head? st2).1]
               state := (submitBatchById now st2.batchIndex.head? st2).2 }
      else
        some { warn := none
               submitted := (submitAllBatches now st2).1
               state := (submitAllBatches now st2).2 }

/-- C3 (code_bug evidence): with the Event Queue, the Batch Store and the
in-flight set all empty (and the throttle off, no previous submission),
`submitEvents` does NOT refuse the pass: the emptiness gate of line 415
compares `batches.length` — `undefined` on a plain object — strictly with 0,
which is always false, so no warning is logged, the Batch Generator runs, and
a fresh `lastSubmitTimestamp` is recorded (the call still returns `[]`, but
only because `submitAllBatches` iterates an empty index). -/
theorem c3_empty_state_not_refused {Ev : Type} (bodySize : List Ev → Nat)
    (limit : Nat) (now r : ℚ) (fuel : Nat) (st : ClientState Ev)
    (h1 : st.events = []) (h2 : st.batches = []) (h3 : st.batchIndex = [])
    (h4 : st.batchesInFlight = []) (h5 : st.isThrottled = false)
    (h6 : st.lastSubmitTimestamp = none) :
    submitEvents bodySize limit now r fuel st =
      some { warn := none, submitted := [],
             state := { st with lastSubmitTimestamp := some now } } ∧
    (∀ m : List (Nat × List Ev), jsStrictEqZero (objectLength m) = false) := by
  refine ⟨?_, fun _ => rfl⟩
  obtain ⟨ev, ba, bi, bf, th, ls, ng, sto⟩ := st
  simp only at h1 h2 h3 h4 h5 h6
  subst h1 h2 h3 h4 h5 h6
  cases fuel <;> rfl

/-- Witness state for C3: completely empty engine. -/
def wSt3 : ClientState Nat :=
  { events := [], batches := [], batchIndex := [], batchesInFlight := [],
    isThrottled := false, lastSubmitTimestamp := none, nextGuid := 0,
    storage := { EVENTS := [], BATCHES := [], BATCH_INDEX := [] } }

/-- Witness for C3 at a concrete empty state. -/
theorem c3_witness :
    submitEvents (fun l : List Nat => 100 * l.length) 256000 77 (1/2) 5 wSt3 =
      some { warn := none, submitted := [],
             state := { wSt3 with lastSubmitTimestamp := some 77 } } ∧
    (∀ m : List (Nat × List Nat), jsStrictEqZero (objectLength m) = false) :=
  c3_empty_state_not_refused (fun l : List Nat => 100 * l.length) 256000 77 (1/2) 5 wSt3
    rfl rfl rfl rfl rfl rfl

/-- C8: while throttled with a recorded `lastSubmitTimestamp = l`, a
`submitEvents` call at time `t` with uniform draw `r ∈ [0, 1)` passes the
throttle gate exactly when `r ≤ min 1 ((t − l)² / 60000²)` — so over the
uniform draw the allow-probability is `min 1 ((t − l)² / 60000²)`, which is at
least 0.99 once `t − l ≥ 59700` ms and equals 1 at `t − l = 60000` ms. -/
theorem c8_throttle_suppression_probability {Ev : Type} (st : ClientState Ev)
    (t r l : ℚ) (hthr : st.isThrottled = true)
    (hlast : st.lastSubmitTimestamp = some l) (hr0 : 0 ≤ r) (hr1 : r < 1) :
    (throttlingSuppressionFunction st.lastSubmitTimestamp t =
      .fin ((t - l) ^ 2 / 60000 ^ 2)) ∧
    (preventedByThrottle st t r = false ↔ r ≤ min 1 ((t - l) ^ 2 / 60000 ^ 2)) ∧
    (59700 ≤ t - l → (99 : ℚ) / 100 ≤ min 1 ((t - l) ^ 2 / 60000 ^ 2)) ∧
    (t - l = 60000 → min 1 ((t - l) ^ 2 / 60000 ^ 2) = 1) := by
  have hform : preventedByThrottle st t r = decide ((t - l) ^ 2 / 60000 ^ 2 < r) := by
    unfold preventedByThrottle throttlingSuppressionFunction jsRatLt
    rw [hthr, hlast]
    exact Bool.true_and _
  refine ⟨by rw [hlast]; rfl, ?_, ?_, ?_⟩
  · rw [hform, decide_eq_false_iff_not, not_lt]
    constructor
    · intro h
      exact le_min (le_of_lt hr1) h
    · intro h
      exact le_trans h (min_le_right _ _)
  · intro h
    rw [le_min_iff]
    refine ⟨by norm_num, ?_⟩
    have hx2 : (59700 : ℚ) ^ 2 ≤ (t - l) ^ 2 := by nlinarith
    calc (99 : ℚ) / 100 ≤ (59700 : ℚ) ^ 2 / 60000 ^ 2 := by norm_num
      _ ≤ (t - l) ^ 2 / 60000 ^ 2 := by gcongr
  · intro h
    rw [h]
    norm_num

/-- Witness state for C8. -/
def wSt8 : ClientState Nat :=
  { events := [], batches := [], batchIndex := [], batchesInFlight := [],
    isThrottled := true, lastSubmitTimestamp := some 0, nextGuid := 0,
    storage := { EVENTS := [], BATCHES := [], BATCH_INDEX := [] } }

/-- Witness for C8: at 60000 ms elapsed the gate passes for the draw 1/2. -/
theorem c8_witness : preventedByThrottle wSt8 60000 (1/2) = false :=
  ((c8_throttle_suppression_probability wSt8 60000 (1/2) 0 rfl rfl (by norm_num)
    (by norm_num)).2.1).mpr (by norm_num)

end AMA
